import Mathlib

/-!
Verification of the seqerakit resource-orchestration engine.

This file gives a shallow embedding, in Lean 4, of the core logic of the
seqerakit package (document merging, existence-policy resolution, command
synthesis, duplicate detection, resource ordering, dataset resolution) and
proves or refutes the specification claims about it.

Sources embedded (paths relative to the repository root):
  - seqerakit/helper.py             (command builders, parse_block, parse_yaml_block,
                                     parse_all_yaml, resolve_dataset_reference, find_name)
  - seqerakit/cli.py                (BlockParser.handle_block policy resolution)
  - seqerakit/utils/yaml_utils.py   (load_and_merge_yaml_files, get_resource_order)
  - seqerakit/models/*.py           (pydantic resource models and to_cli_args)

The modules seqerakit/on_exists.py, seqerakit/seqeraplatform.py and
seqerakit/utils/helpers.py are not part of the provided sources; the few
definitions taken from them are modelled from the specification and marked
as such in their doc comments.
-/

namespace Seqerakit

/-! ## YAML values and documents

Python YAML documents (the output of yaml.safe_load) are modelled by the
type Yaml below: scalars (strings, integers, booleans, None), lists and
mappings.  A mapping is an insertion-ordered association list, mirroring
the insertion-order semantics of a Python dict; documents produced by the
YAML loader have pairwise-distinct keys.
-/

inductive Yaml where
  | str (s : String)
  | int (n : Int)
  | bool (b : Bool)
  | null
  | list (xs : List Yaml)
  | map (kvs : List (String × Yaml))

mutual
/-- Deep structural equality of YAML values.  This models the comparison
json.dumps(a, sort_keys=True) == json.dumps(b, sort_keys=True) used by the
merge step of seqerakit/utils/yaml_utils.py (load_and_merge_yaml_files) and
seqerakit/helper.py (parse_all_yaml): serialized comparison with sorted keys
is value-for-value deep equality up to mapping key order, and we model
mappings as association lists in one canonical key order, under which it
coincides with structural equality. -/
def yamlBEq : Yaml → Yaml → Bool
  | .str a, .str b => a == b
  | .int a, .int b => a == b
  | .bool a, .bool b => a == b
  | .null, .null => true
  | .list as, .list bs => yamlListBEq as bs
  | .map as, .map bs => yamlKvsBEq as bs
  | _, _ => false

def yamlListBEq : List Yaml → List Yaml → Bool
  | [], [] => true
  | a :: as, b :: bs => yamlBEq a b && yamlListBEq as bs
  | _, _ => false

def yamlKvsBEq : List (String × Yaml) → List (String × Yaml) → Bool
  | [], [] => true
  | (k, a) :: as, (l, b) :: bs => k == l && yamlBEq a b && yamlKvsBEq as bs
  | _, _ => false
end

mutual
theorem yamlBEq_iff : ∀ a b : Yaml, yamlBEq a b = true ↔ a = b
  | .str a, b => by cases b <;> simp [yamlBEq]
  | .int a, b => by cases b <;> simp [yamlBEq]
  | .bool a, b => by cases b <;> simp [yamlBEq]
  | .null, b => by cases b <;> simp [yamlBEq]
  | .list as, b => by
      cases b <;> simp [yamlBEq]
      exact yamlListBEq_iff as _
  | .map as, b => by
      cases b <;> simp [yamlBEq]
      exact yamlKvsBEq_iff as _

theorem yamlListBEq_iff : ∀ as bs : List Yaml, yamlListBEq as bs = true ↔ as = bs
  | [], bs => by cases bs <;> simp [yamlListBEq]
  | a :: as, bs => by
      cases bs with
      | nil => simp [yamlListBEq]
      | cons b bs =>
          simp [yamlListBEq, Bool.and_eq_true, yamlBEq_iff a b, yamlListBEq_iff as bs]

theorem yamlKvsBEq_iff :
    ∀ as bs : List (String × Yaml), yamlKvsBEq as bs = true ↔ as = bs
  | [], bs => by cases bs <;> simp [yamlKvsBEq]
  | (k, a) :: as, bs => by
      cases bs with
      | nil => simp [yamlKvsBEq]
      | cons q bs =>
          obtain ⟨l, b⟩ := q
          simp [yamlKvsBEq, Bool.and_eq_true, yamlBEq_iff a b, yamlKvsBEq_iff as bs]
end

instance : DecidableEq Yaml := fun a b => decidable_of_iff _ (yamlBEq_iff a b)

instance {ε α : Type} [DecidableEq ε] [DecidableEq α] : DecidableEq (Except ε α) :=
  fun a b =>
    match a, b with
    | .ok x, .ok y =>
        if h : x = y then isTrue (by simp [h]) else isFalse (by simp [h])
    | .ok _, .error _ => isFalse (by simp)
    | .error _, .ok _ => isFalse (by simp)
    | .error x, .error y =>
        if h : x = y then isTrue (by simp [h]) else isFalse (by simp [h])

/-- Membership of a YAML value in a list, by deep structural equality;
this models the Python test item_json in existing_items over the set of
sorted-keys JSON serializations. -/
def yamlContains (es : List Yaml) (x : Yaml) : Bool :=
  es.any fun e => yamlBEq e x

theorem yamlContains_iff_mem (es : List Yaml) (x : Yaml) :
    yamlContains es x = true ↔ x ∈ es := by
  simp only [yamlContains, List.any_eq_true]
  constructor
  · rintro ⟨e, he, hbe⟩
    rw [yamlBEq_iff] at hbe
    rwa [← hbe]
  · intro hx
    exact ⟨x, hx, (yamlBEq_iff x x).mpr rfl⟩

/-- Tests whether a YAML value is a mapping; models isinstance(i, dict). -/
def isMapVal : Yaml → Bool
  | .map _ => true
  | _ => false

/-! ## Documents and the merge step -/

/-- A top-level YAML document: an insertion-ordered mapping from resource
kind names to values, as produced by yaml.safe_load on one source. -/
abbrev Doc := List (String × Yaml)

/-- Lookup of a key in a document; models merged_data.get(key) / key in merged_data. -/
def docFind : Doc → String → Option Yaml
  | [], _ => none
  | (k, v) :: rest, key => if k = key then some v else docFind rest key

/-- Assignment merged_data[key] = value on a Python dict: replaces the value
in place when the key is present, appends the key at the end otherwise. -/
def docSet : Doc → String → Yaml → Doc
  | [], key, v => [(key, v)]
  | (k, w) :: rest, key, v =>
      if k = key then (k, v) :: rest else (k, w) :: docSet rest key v

/-- Merge of one incoming top-level value onto the accumulator value for the
same key, following seqerakit/utils/yaml_utils.py lines 62-81 (the identical
loop appears in seqerakit/helper.py parse_all_yaml, lines 526-546):
  - if the key was absent, the new value is inserted as-is;
  - if the key is present and the new value is a list whose items are all
    mappings (vacuously true of an empty list), Python builds the
    membership set existing_items by iterating the existing value and then
    appends every new item not already present (sorted-keys JSON
    serialization, i.e. deep content equality) with
    merged_data[key].append(item).  When the existing value is a list this
    is the append-union.  When it is a string or a mapping, building the
    set succeeds (iterating characters or keys) and no serialized mapping
    ever matches those entries, so an empty new list leaves the existing
    value unchanged while a non-empty new list raises AttributeError at
    the first append.  When it is a number, a boolean or null, building
    the set raises TypeError.  The raising outcomes are modelled as
    .error;
  - otherwise the new value replaces the existing one (last write wins).
Note the membership set is computed once, so duplicates inside the new
list are each appended. -/
def mergeValue (old : Option Yaml) (v : Yaml) : Except String Yaml :=
  match old with
  | none => .ok v
  | some oldVal =>
      match v with
      | .list items =>
          if items.all isMapVal then
            match oldVal with
            | .list es =>
                .ok (.list (es ++ items.filter fun i => !(yamlContains es i)))
            | .str s =>
                if items.isEmpty then .ok (.str s)
                else .error "AttributeError: str object has no attribute append"
            | .map kvs =>
                if items.isEmpty then .ok (.map kvs)
                else .error "AttributeError: dict object has no attribute append"
            | _ => .error "TypeError: existing value is not iterable"
          else .ok v
      | _ => .ok v

/-- Processing of one key/value pair of an incoming source document. -/
def mergeEntry (acc : Doc) (k : String) (v : Yaml) : Except String Doc :=
  match mergeValue (docFind acc k) v with
  | .ok w => .ok (docSet acc k w)
  | .error e => .error e

/-- Merging one whole source document into the accumulator, iterating its
key/value pairs in order; models the for key, new_value in data.items()
loop of load_and_merge_yaml_files / parse_all_yaml. -/
def mergeDocs (acc : Doc) : Doc → Except String Doc
  | [] => .ok acc
  | (k, v) :: rest =>
      match mergeEntry acc k v with
      | .ok acc' => mergeDocs acc' rest
      | .error e => .error e

/-! ## Python string rendering

The argument builders call str(value) on attribute values and test
".json" in str(v); the functions below model CPython rendering for the
value shapes that occur in YAML documents. -/

mutual
/-- Python repr() of a YAML value (string escapes are not modelled; the
attribute values exercised here contain no quotes or control characters). -/
def pyRepr : Yaml → String
  | .str s => "\x27" ++ s ++ "\x27"
  | .int n => toString n
  | .bool b => if b then "True" else "False"
  | .null => "None"
  | .list xs => "[" ++ pyReprList xs ++ "]"
  | .map kvs => "\x7b" ++ pyReprKvs kvs ++ "\x7d"

/-- Comma-separated repr of list elements, as inside Python str() of a list. -/
def pyReprList : List Yaml → String
  | [] => ""
  | [x] => pyRepr x
  | x :: xs => pyRepr x ++ ", " ++ pyReprList xs

/-- Comma-separated repr of dict entries, as inside Python str() of a dict. -/
def pyReprKvs : List (String × Yaml) → String
  | [] => ""
  | [(k, v)] => "\x27" ++ k ++ "\x27: " ++ pyRepr v
  | (k, v) :: kvs => "\x27" ++ k ++ "\x27: " ++ pyRepr v ++ ", " ++ pyReprKvs kvs
end

/-- Python str() of a YAML value: like repr() except that a top-level
string renders without quotes. -/
def pyStr : Yaml → String
  | .str s => s
  | v => pyRepr v

/-- Tests whether the character list needle occurs at the start of hay. -/
def charsStartWith : List Char → List Char → Bool
  | _, [] => true
  | [], _ :: _ => false
  | a :: as, b :: bs => a == b && charsStartWith as bs

/-- Substring occurrence test on character lists. -/
def charsContain : List Char → List Char → Bool
  | [], needle => charsStartWith [] needle
  | a :: as, needle => charsStartWith (a :: as) needle || charsContain as needle

/-- Python substring test ".json" in s. -/
def containsJson (s : String) : Bool :=
  charsContain s.data ".json".data

/-- Tests any(".json" in str(v) for v in data.values()), the check the
command builders use to decide between the add and import sub-operations. -/
def anyValueJson (data : List (String × Yaml)) : Bool :=
  data.any fun kv => containsJson (pyStr kv.2)

/-! ## Commands -/

/-- A Seqera Platform CLI command, from the Command dataclass of
seqerakit/helper.py: target subcommand (resource kind), ordered argument
list, and sub-operation verb (method, default "add"). -/
structure Command where
  subcommand : String
  args : List String
  method : String := "add"
deriving DecidableEq

/-- Result of building the commands for one record: a single command, or a
team-creation command together with one members command per team member
(the tuple returned by TeamsCommandBuilder.build_command). -/
inductive CommandResult where
  | single (c : Command)
  | withMembers (main : Command) (members : List Command)
deriving DecidableEq

/-! ## Generic argument rendering

SeqeraResource.to_cli_args (seqerakit/models/base.py lines 20-46) renders
the model dump in field-declaration order: a boolean becomes a bare flag
only when true, a list becomes one comma-joined value, anything else
becomes a key/value flag pair.  The serialized dump (input_dict) excludes
None values, so the null branch never receives input from a model. -/

/-- Argument rendering of SeqeraResource.to_cli_args over the serialized
field list (by_alias=True, exclude_none=True, declaration order). -/
def baseToCliArgs : List (String × Yaml) → List String
  | [] => []
  | (k, .bool b) :: rest =>
      (if b then ["--" ++ k] else []) ++ baseToCliArgs rest
  | (k, .list xs) :: rest =>
      ("--" ++ k) :: String.intercalate "," (xs.map pyStr) :: baseToCliArgs rest
  | (k, v) :: rest => ("--" ++ k) :: pyStr v :: baseToCliArgs rest

/-- Argument rendering used by the raw-dict paths and by the per-model
to_cli_args overrides of pipeline.py, launch.py and action.py: a boolean
becomes a bare flag only when true, None is skipped, anything else becomes
a key/value pair with str(value) (no comma-joining of lists). -/
def dictToArgs : List (String × Yaml) → List String
  | [] => []
  | (k, .bool b) :: rest =>
      (if b then ["--" ++ k] else []) ++ dictToArgs rest
  | (_, .null) :: rest => dictToArgs rest
  | (k, v) :: rest => ("--" ++ k) :: pyStr v :: dictToArgs rest

/-- Serialization helper: an optional string field of a pydantic model,
rendered under its alias when present and dropped when None. -/
def optS (k : String) : Option String → List (String × Yaml)
  | some s => [(k, .str s)]
  | none => []

/-- Serialization helper for an optional boolean field. -/
def optB (k : String) : Option Bool → List (String × Yaml)
  | some b => [(k, .bool b)]
  | none => []

/-- Serialization helper for an optional mapping-valued field. -/
def optM (k : String) : Option (List (String × Yaml)) → List (String × Yaml)
  | some m => [(k, .map m)]
  | none => []

/-! ## Existence policy -/

/-- Modelled from the spec: the module seqerakit/on_exists.py is not among
the provided sources.  Per specification §3 (ExistencePolicy is one of
Fail, Ignore, Overwrite) and the uses OnExists.FAIL, OnExists.IGNORE,
OnExists.OVERWRITE and OnExists[name.upper()] in helper.py and cli.py, it
is an enumeration with exactly these three members. -/
inductive OnExists where
  | fail
  | ignore
  | overwrite
deriving DecidableEq

/-- Uppercase conversion of an ASCII option name, modelling str.upper(). -/
def pyUpper (s : String) : String :=
  String.mk (s.data.map fun c =>
    if 'a' ≤ c && c ≤ 'z' then Char.ofNat (c.toNat - 32) else c)

/-- Enum lookup OnExists[s.upper()], as performed by parse_block
(helper.py line 421) and handle_block (cli.py line 138); an unknown name
yields none (the Python code raises KeyError there). -/
def onExistsOfString (s : String) : Option OnExists :=
  if pyUpper s = "FAIL" then some .fail
  else if pyUpper s = "IGNORE" then some .ignore
  else if pyUpper s = "OVERWRITE" then some .overwrite
  else none

/-- Lowercase member name of a policy, as written in YAML documents. -/
def onExistsName : OnExists → String
  | .fail => "fail"
  | .ignore => "ignore"
  | .overwrite => "overwrite"

/-- Record-level policy resolution of parse_block (helper.py lines
411-428): a legacy overwrite boolean takes precedence (true means
Overwrite, false means Fail); otherwise an on_exists string is looked up
case-insensitively (an unknown name is a ValueError, modelled as .error);
otherwise the default is Fail. -/
def parseBlockOnExists (overwrite : Option Bool) (onExistsStr : Option String) :
    Except String OnExists :=
  match overwrite with
  | some b => .ok (if b then .overwrite else .fail)
  | none =>
      match onExistsStr with
      | some s =>
          match onExistsOfString s with
          | some e => .ok e
          | none => .error ("Invalid on_exists option: " ++ s)
      | none => .ok .fail

/-- Effective-policy resolution of BlockParser.handle_block (cli.py lines
115-141): the global --on-exists policy wins if set; otherwise the
deprecated global --overwrite flag forces Overwrite; otherwise the
record-level value resolved by parse_block is used. -/
def handleBlockOnExists (globalOnExists : Option OnExists)
    (globalOverwriteFlag : Bool) (recordOnExists : OnExists) : OnExists :=
  match globalOnExists with
  | some g => g
  | none => if globalOverwriteFlag then .overwrite else recordOnExists

/-- Statement of claim C2, claim side: the run-global policy named by the
claim, combining the --on-exists option with the deprecated global
--overwrite flag (which cli.py maps to a global Overwrite policy). -/
def runGlobalPolicy (globalOnExists : Option OnExists)
    (globalOverwriteFlag : Bool) : Option OnExists :=
  match globalOnExists with
  | some g => some g
  | none => if globalOverwriteFlag then some .overwrite else none

/-! ## Resource models

Each pydantic model is embedded as a structure whose serialized dump
(input_dict: by_alias=True, exclude_none=True) lists the fields in
declaration order under their hyphenated aliases, exactly as pydantic
model_dump produces it. -/

/-- Credential model, seqerakit/models/credential.py.  Note that this model
does NOT override to_cli_args: it inherits the generic rendering of
SeqeraResource (base.py), with no positional handling of the type field. -/
structure Credential where
  type : String
  name : String
  workspace : Option String := none
  overwrite : Option Bool := none
  access_key : Option String := none
  secret_key : Option String := none
  assume_role_arn : Option String := none
  key : Option String := none
  batch_key : Option String := none
  batch_name : Option String := none
  storage_key : Option String := none
  storage_name : Option String := none
  username : Option String := none
  password : Option String := none
  token : Option String := none
  private_key : Option String := none
  passphrase : Option String := none
  kubeconfig : Option String := none
  connection_id : Option String := none
  work_dir : Option String := none
  registry_server : Option String := none
deriving DecidableEq

/-- Serialized dump of a Credential in field-declaration order. -/
def credInputDict (c : Credential) : List (String × Yaml) :=
  [("type", .str c.type), ("name", .str c.name)]
  ++ optS "workspace" c.workspace ++ optB "overwrite" c.overwrite
  ++ optS "access-key" c.access_key ++ optS "secret-key" c.secret_key
  ++ optS "assume-role-arn" c.assume_role_arn ++ optS "key" c.key
  ++ optS "batch-key" c.batch_key ++ optS "batch-name" c.batch_name
  ++ optS "storage-key" c.storage_key ++ optS "storage-name" c.storage_name
  ++ optS "username" c.username ++ optS "password" c.password
  ++ optS "token" c.token ++ optS "private-key" c.private_key
  ++ optS "passphrase" c.passphrase ++ optS "kubeconfig" c.kubeconfig
  ++ optS "connection-id" c.connection_id ++ optS "work-dir" c.work_dir
  ++ optS "registry-server" c.registry_server

/-- Command synthesis for a credential record, following
TypeBasedCommandBuilder.build_command (helper.py lines 162-176): the
arguments come from the model's to_cli_args(), which for Credential is the
inherited SeqeraResource.to_cli_args; the params branch cannot trigger
because the Credential model declares no params field; the sub-operation
is import when any serialized value contains ".json", else add. -/
def credentialsBuildCommand (c : Credential) : Command :=
  let data := credInputDict c
  { subcommand := "credentials"
    args := baseToCliArgs data
    method := if anyValueJson data then "import" else "add" }

/-- The arguments contributed by the Credential fields declared before the
overwrite field (type, name, workspace) under the inherited generic
rendering; used to state where a true overwrite surfaces in the list. -/
def credOverwritePrefix (c : Credential) : List String :=
  baseToCliArgs
    ([("type", .str c.type), ("name", .str c.name)]
      ++ optS "workspace" c.workspace)

/-- The arguments contributed by the Credential fields declared after the
overwrite field (access-key onward) under the inherited generic
rendering. -/
def credOverwriteSuffix (c : Credential) : List String :=
  baseToCliArgs
    (optS "access-key" c.access_key ++ optS "secret-key" c.secret_key
      ++ optS "assume-role-arn" c.assume_role_arn ++ optS "key" c.key
      ++ optS "batch-key" c.batch_key ++ optS "batch-name" c.batch_name
      ++ optS "storage-key" c.storage_key ++ optS "storage-name" c.storage_name
      ++ optS "username" c.username ++ optS "password" c.password
      ++ optS "token" c.token ++ optS "private-key" c.private_key
      ++ optS "passphrase" c.passphrase ++ optS "kubeconfig" c.kubeconfig
      ++ optS "connection-id" c.connection_id ++ optS "work-dir" c.work_dir
      ++ optS "registry-server" c.registry_server)

/-- Action model, seqerakit/models/action.py.  The overwrite attribute is
its fourth declared field, before the pipeline/url/hook attributes. -/
structure Action where
  type : String
  name : Option String := none
  workspace : Option String := none
  overwrite : Option Bool := none
  pipeline : Option String := none
  url : Option String := none
  hook_url : Option String := none
  hook_method : Option String := none
  endpoint : Option String := none
  event : Option String := none
  launch : Option Bool := none
  params : Option (List (String × Yaml)) := none
deriving DecidableEq

/-- The portion of the Action dump iterated by the flag loop of
Action.to_cli_args (action.py lines 26-50): the dump without the type
positional, which the method pops first, and without params, which it
excludes for the builder; the overwrite field is rendered in place,
between workspace and pipeline. -/
def actionLoopDict (a : Action) : List (String × Yaml) :=
  optS "name" a.name ++ optS "workspace" a.workspace
  ++ optB "overwrite" a.overwrite
  ++ optS "pipeline" a.pipeline ++ optS "url" a.url
  ++ optS "hook-url" a.hook_url ++ optS "hook-method" a.hook_method
  ++ optS "endpoint" a.endpoint ++ optS "event" a.event
  ++ optB "launch" a.launch

/-- Action.to_cli_args: the type is the sole leading positional token and
the remaining attributes (minus params) are rendered by the flag loop. -/
def actionToCliArgs (a : Action) : List String :=
  a.type :: dictToArgs (actionLoopDict a)

/-- The arguments contributed by the Action fields declared before the
overwrite field (the type positional, then name and workspace). -/
def actionOverwritePrefix (a : Action) : List String :=
  a.type :: dictToArgs (optS "name" a.name ++ optS "workspace" a.workspace)

/-- The arguments contributed by the Action fields declared after the
overwrite field (pipeline onward, params excluded by to_cli_args). -/
def actionOverwriteSuffix (a : Action) : List String :=
  dictToArgs
    (optS "pipeline" a.pipeline ++ optS "url" a.url
      ++ optS "hook-url" a.hook_url ++ optS "hook-method" a.hook_method
      ++ optS "endpoint" a.endpoint ++ optS "event" a.event
      ++ optB "launch" a.launch)

/-- Organization model, seqerakit/models/organization.py.  The overwrite
attribute is a declared model field; on_exists is not declared and is
dropped by the model configuration extra="ignore". -/
structure Organization where
  name : String
  full_name : String
  description : Option String := none
  location : Option String := none
  website : Option String := none
  overwrite : Option Bool := none
deriving DecidableEq

/-- Serialized dump of an Organization in field-declaration order. -/
def orgInputDict (o : Organization) : List (String × Yaml) :=
  [("name", .str o.name), ("full-name", .str o.full_name)]
  ++ optS "description" o.description ++ optS "location" o.location
  ++ optS "website" o.website ++ optB "overwrite" o.overwrite

/-- Command synthesis for an organization record via GenericCommandBuilder
(helper.py lines 149-156), which delegates to the inherited
SeqeraResource.to_cli_args. -/
def organizationsBuildCommand (o : Organization) : Command :=
  { subcommand := "organizations"
    args := baseToCliArgs (orgInputDict o)
    method := "add" }

/-- Raw YAML record of an organizations block, before model validation:
the attributes of the Organization model plus the two existence-policy
metadata attributes on_exists and overwrite as the user may write them.
(A file-path key, which would route the item to the raw-dict import path
of validate_and_build_model, is not an organization attribute.) -/
structure RawOrgItem where
  name : String
  full_name : String
  description : Option String := none
  location : Option String := none
  website : Option String := none
  overwrite : Option Bool := none
  on_exists : Option String := none
deriving DecidableEq

/-- Model construction Organization(**item) performed by
validate_and_build_model (helper.py lines 360-393): the declared fields are
taken over — including overwrite, which is a declared Organization field —
while the undeclared on_exists key is dropped by extra="ignore".
validate_and_build_model reads on_exists and overwrite into a separate
metadata dict but does not remove them from the item. -/
def orgOfItem (it : RawOrgItem) : Organization :=
  { name := it.name
    full_name := it.full_name
    description := it.description
    location := it.location
    website := it.website
    overwrite := it.overwrite }

/-- Full synthesis path of parse_block for an organizations record:
validation into the model followed by GenericCommandBuilder.build_command. -/
def organizationsParse (it : RawOrgItem) : Command :=
  organizationsBuildCommand (orgOfItem it)

/-- Pipeline model, seqerakit/models/pipeline.py (the class imported by
seqerakit.models and used in MODEL_MAP). -/
structure Pipeline where
  name : String
  url : String
  workspace : Option String := none
  description : Option String := none
  labels : Option String := none
  compute_env : Option String := none
  work_dir : Option String := none
  profile : Option String := none
  params_file : Option String := none
  revision : Option String := none
  config : Option String := none
  pre_run : Option String := none
  post_run : Option String := none
  pull_latest : Option Bool := none
  stub_run : Option Bool := none
  main_script : Option String := none
  entry_name : Option String := none
  schema_name : Option String := none
  user_secrets : Option String := none
  workspace_secrets : Option String := none
deriving DecidableEq

/-- Serialized dump of a Pipeline in field-declaration order. -/
def pipeInputDict (p : Pipeline) : List (String × Yaml) :=
  [("name", .str p.name), ("url", .str p.url)]
  ++ optS "workspace" p.workspace ++ optS "description" p.description
  ++ optS "labels" p.labels ++ optS "compute-env" p.compute_env
  ++ optS "work-dir" p.work_dir ++ optS "profile" p.profile
  ++ optS "params-file" p.params_file ++ optS "revision" p.revision
  ++ optS "config" p.config ++ optS "pre-run" p.pre_run
  ++ optS "post-run" p.post_run ++ optB "pull-latest" p.pull_latest
  ++ optB "stub-run" p.stub_run ++ optS "main-script" p.main_script
  ++ optS "entry-name" p.entry_name ++ optS "schema-name" p.schema_name
  ++ optS "user-secrets" p.user_secrets
  ++ optS "workspace-secrets" p.workspace_secrets

/-- The portion of the Pipeline dump iterated by the flag loop of
Pipeline.to_cli_args: the dump without the url positional and without the
params/params-file keys, which the method pops before the loop. -/
def pipeLoopDict (p : Pipeline) : List (String × Yaml) :=
  [("name", .str p.name)]
  ++ optS "workspace" p.workspace ++ optS "description" p.description
  ++ optS "labels" p.labels ++ optS "compute-env" p.compute_env
  ++ optS "work-dir" p.work_dir ++ optS "profile" p.profile
  ++ optS "revision" p.revision
  ++ optS "config" p.config ++ optS "pre-run" p.pre_run
  ++ optS "post-run" p.post_run ++ optB "pull-latest" p.pull_latest
  ++ optB "stub-run" p.stub_run ++ optS "main-script" p.main_script
  ++ optS "entry-name" p.entry_name ++ optS "schema-name" p.schema_name
  ++ optS "user-secrets" p.user_secrets
  ++ optS "workspace-secrets" p.workspace_secrets

/-- Pipeline.to_cli_args: the url is the sole leading positional token and
the remaining attributes are rendered by the flag loop. -/
def pipelineToCliArgs (p : Pipeline) : List String :=
  p.url :: dictToArgs (pipeLoopDict p)

/-- Command synthesis for a pipelines record, following
PipelineCommandBuilder.build_command (helper.py lines 256-282).  The
Pipeline model declares no params field, so data.get("params") is always
None and the inline-params branch cannot trigger; an explicit params-file
is appended unchanged; the sub-operation is import when any serialized
value contains ".json", else add. -/
def pipelinesBuildCommand (p : Pipeline) : Command :=
  let args := pipelineToCliArgs p
  let args :=
    match p.params_file with
    | some pf => args ++ ["--params-file", pf]
    | none => args
  { subcommand := "pipelines"
    args := args
    method := if anyValueJson (pipeInputDict p) then "import" else "add" }

/-! ## Duplicate detection within a block -/

/-- The per-record result of parse_block (helper.py lines 396-447): the
synthesized command value and the record-level existence policy. -/
structure BlockEntry where
  cmd_args : CommandResult
  on_exists : OnExists
deriving DecidableEq

/-- Scan of find_name (helper.py lines 669-710) over a command argument
list: the token immediately following the first occurrence of --name,
--user or --email; none when no such key occurs, and none when the key is
the final token (next(it, None)).  Command.args has type List[str], so the
source's recursion into nested lists/tuples — kept for legacy argument
formats — never fires on the pydantic path; on a flat list the depth-first
search is this first-match linear scan. -/
def searchNameToken : List String → Option String
  | [] => none
  | a :: rest =>
      if a = "--name" ∨ a = "--user" ∨ a = "--email" then rest.head?
      else searchNameToken rest

/-- The identifying value of a synthesized record: find_name applied to the
parse_block result.  For a teams tuple the main command is searched. -/
def findName (e : BlockEntry) : Option String :=
  match e.cmd_args with
  | .single c => searchNameToken c.args
  | .withMembers m _ => searchNameToken m.args

/-- Loop body of parse_yaml_block (helper.py lines 450-498), generic in the
record type and its parser: records are filtered by the optional name
filter, parsed, and rejected with the duplicate-name ValueError when the
identifying value extracted by find_name has already been seen within the
block; identifier-less records all share the identifying value none. -/
def parseYamlBlockLoop {α : Type} (blockName : String)
    (itemName : α → Option String) (build : α → BlockEntry)
    (nameFilter : Option (List String)) :
    List α → List (Option String) → List BlockEntry →
      Except String (List BlockEntry)
  | [], _, acc => .ok acc.reverse
  | item :: rest, names, acc =>
      if (match nameFilter with
          | some nf =>
              !nf.isEmpty &&
                !(match itemName item with
                  | some n => nf.contains n
                  | none => false)
          | none => false) then
        parseYamlBlockLoop blockName itemName build nameFilter rest names acc
      else
        let e := build item
        let name := findName e
        if names.contains name then
          .error ("Duplicate name key specified in config file for "
            ++ blockName ++ ". Please specify a unique value.")
        else
          parseYamlBlockLoop blockName itemName build nameFilter rest
            (name :: names) (e :: acc)

/-- parse_yaml_block for a block of records: parse each record in order,
failing the whole block on the first duplicate identifying value; a block
that fails produces no command list, so none of its commands reaches the
dispatch loop of cli.main (which only runs on the returned dictionary). -/
def parseYamlBlockItems {α : Type} (blockName : String)
    (itemName : α → Option String) (build : α → BlockEntry)
    (nameFilter : Option (List String)) (items : List α) :
    Except String (List BlockEntry) :=
  parseYamlBlockLoop blockName itemName build nameFilter items [] []

/-! ## Raw-dict synthesis paths

validate_and_build_model (helper.py lines 360-393) returns no model for an
item containing a file-path key; parse_block then calls the builder's
build_command_from_dict on the raw item. -/

/-- A raw YAML record as an insertion-ordered attribute mapping. -/
abbrev RawItem := List (String × Yaml)

/-- Metadata stripping of the dict paths: the on_exists and overwrite keys
are removed before argument rendering. -/
def rawStripMeta (item : RawItem) : RawItem :=
  item.filter fun kv => kv.1 ≠ "on_exists" && kv.1 ≠ "overwrite"

/-- Removal of a key from a raw mapping (Python dict pop / del). -/
def docRemove : Doc → String → Doc
  | [], _ => []
  | (k, v) :: rest, key =>
      if k = key then rest else (k, v) :: docRemove rest key

/-- Extraction of the priority keys as leading positionals, in priority
order, removing each from the data mapping (the for key in priority_keys
loop of TypeBasedCommandBuilder.build_command_from_dict). -/
def popPriorityArgs : List String → RawItem → (List String × RawItem)
  | [], data => ([], data)
  | k :: ks, data =>
      match docFind data k with
      | some v =>
          let pr := popPriorityArgs ks (docRemove data k)
          (pyStr v :: pr.1, pr.2)
      | none => popPriorityArgs ks data

/-- TypeBasedCommandBuilder.build_command_from_dict (helper.py lines
178-198): metadata stripped; type, config-mode and file-path become leading
positional tokens in that order; the remaining attributes are rendered as
flags; the sub-operation is import when any original item value contains
".json", else add. -/
def typeBasedBuildFromDict (sub : String) (item : RawItem) : Command :=
  let data := rawStripMeta item
  let pr := popPriorityArgs ["type", "config-mode", "file-path"] data
  { subcommand := sub
    args := pr.1 ++ dictToArgs pr.2
    method := if anyValueJson item then "import" else "add" }

/-- CommandBuilder.build_command_from_dict (helper.py lines 127-146), the
default dict path used by GenericCommandBuilder: metadata stripped, every
remaining attribute rendered by the generic flag loop, sub-operation fixed
at the builder's method (add). -/
def genericBuildFromDict (sub meth : String) (item : RawItem) : Command :=
  { subcommand := sub
    args := dictToArgs (rawStripMeta item)
    method := meth }

/-- Synthesis path of parse_block for a datasets record.  The Dataset model
(seqerakit/models/dataset.py) declares file_path as a required field, so an
item without file-path fails pydantic validation (raised as a ValueError by
validate_and_build_model); and an item with file-path is returned
unvalidated by validate_and_build_model and built by the dict path of its
GenericCommandBuilder — so for datasets the model path never runs. -/
def datasetsParseCommand (item : RawItem) : Except String Command :=
  if (docFind item "file-path").isSome then
    .ok (genericBuildFromDict "datasets" "add" item)
  else
    .error "Validation error in datasets: Field required: file-path"

/-- Identifying attribute of a raw item as read by the name filter of
parse_yaml_block (item.get name/user/email); the Python or-chain also
skips falsy values, which does not occur for the string names used here. -/
def rawItemName (item : RawItem) : Option String :=
  match docFind item "name" with
  | some v => some (pyStr v)
  | none =>
      match docFind item "user" with
      | some v => some (pyStr v)
      | none =>
          match docFind item "email" with
          | some v => some (pyStr v)
          | none => none

/-! ## Resource ordering -/

/-- The fixed creation order over resource kinds, from get_resource_order
(seqerakit/utils/yaml_utils.py lines 108-140); the identical list is
inlined in parse_all_yaml (helper.py lines 559-576). -/
def resourceOrder : List String :=
  [ "organizations", "teams", "workspaces", "labels", "members",
    "participants", "credentials", "compute-envs", "secrets", "actions",
    "datasets", "pipelines", "launch", "data-links", "studios" ]

/-- get_resource_order(destroy): the creation order, or for deletion the
slice resource_order[:-1][::-1] — the creation order with its last kind
removed, reversed. -/
def getResourceOrder (destroy : Bool) : List String :=
  if destroy then resourceOrder.dropLast.reverse else resourceOrder

/-! ## Dataset resolution and the launch build path -/

/-- An externally observable side effect of one orchestration step. -/
inductive ExternalCall where
  | datasetLookup (name workspace : String)
deriving DecidableEq

/-- Modelled from the spec: seqerakit/seqeraplatform.py is not among the
provided sources.  The SeqeraPlatform client carries the dryrun flag and
reaches the external system; specification §5 states that dry-run mode
performs zero external calls and renders commands to text only, so a
dry-run invocation returns no parsed result (Python None), while a real
invocation consults the dataset-lookup collaborator of §6, whose answer is
the datasetUrl field of the JSON result when the dataset is found. -/
structure SeqeraPlatformModel where
  dryrun : Bool
  datasetUrl : String → String → Option String

/-- The call sp.datasets("url", "-n", name, "-w", workspace) made by
resolve_dataset_reference, together with the external calls it performs. -/
def spDatasetsUrl (sp : SeqeraPlatformModel) (name ws : String) :
    Option String × List ExternalCall :=
  if sp.dryrun then (none, [])
  else (sp.datasetUrl name ws, [.datasetLookup name ws])

/-- resolve_dataset_reference (helper.py lines 596-632): a params mapping
without a dataset key passes through untouched; otherwise the dataset name
is resolved through the platform client, the resulting URL is stored under
the input key and the dataset key is deleted; a missing URL raises a
ValueError (wrapped by the outer except into the failed-to-resolve
message). -/
def resolveDatasetReference (params : Doc) (workspace : String)
    (sp : SeqeraPlatformModel) : Except String Doc × List ExternalCall :=
  match docFind params "dataset" with
  | none => (.ok params, [])
  | some dv =>
      let dn := pyStr dv
      let res := spDatasetsUrl sp dn workspace
      match res.1 with
      | some url =>
          (.ok (docRemove (docSet params "input" (.str url)) "dataset"), res.2)
      | none =>
          (.error ("Failed to resolve dataset \x27" ++ dn
            ++ "\x27: No URL found for dataset \x27" ++ dn ++ "\x27"), res.2)

/-- Launch model, seqerakit/models/launch.py; unlike the Pipeline model it
declares an inline params mapping field. -/
structure Launch where
  pipeline : String
  workspace : Option String := none
  params_file : Option String := none
  params : Option (List (String × Yaml)) := none
  compute_env : Option String := none
  name : Option String := none
  work_dir : Option String := none
  profile : Option String := none
  revision : Option String := none
  wait : Option String := none
  labels : Option String := none
  launch_container : Option String := none
  config : Option String := none
  pre_run : Option String := none
  post_run : Option String := none
  pull_latest : Option Bool := none
  stub_run : Option Bool := none
  main_script : Option String := none
  entry_name : Option String := none
  schema_name : Option String := none
  user_secrets : Option String := none
  workspace_secrets : Option String := none
  disable_optimization : Option Bool := none
deriving DecidableEq

/-- Serialized dump of a Launch in field-declaration order. -/
def launchInputDict (l : Launch) : List (String × Yaml) :=
  [("pipeline", .str l.pipeline)]
  ++ optS "workspace" l.workspace ++ optS "params-file" l.params_file
  ++ optM "params" l.params ++ optS "compute-env" l.compute_env
  ++ optS "name" l.name ++ optS "work-dir" l.work_dir
  ++ optS "profile" l.profile ++ optS "revision" l.revision
  ++ optS "wait" l.wait ++ optS "labels" l.labels
  ++ optS "launch-container" l.launch_container ++ optS "config" l.config
  ++ optS "pre-run" l.pre_run ++ optS "post-run" l.post_run
  ++ optB "pull-latest" l.pull_latest ++ optB "stub-run" l.stub_run
  ++ optS "main-script" l.main_script ++ optS "entry-name" l.entry_name
  ++ optS "schema-name" l.schema_name ++ optS "user-secrets" l.user_secrets
  ++ optS "workspace-secrets" l.workspace_secrets
  ++ optB "disable-optimization" l.disable_optimization

/-- The portion of the Launch dump iterated by the flag loop of
Launch.to_cli_args: the dump without the pipeline positional and without
the params/params-file keys. -/
def launchLoopDict (l : Launch) : List (String × Yaml) :=
  optS "workspace" l.workspace
  ++ optS "compute-env" l.compute_env
  ++ optS "name" l.name ++ optS "work-dir" l.work_dir
  ++ optS "profile" l.profile ++ optS "revision" l.revision
  ++ optS "wait" l.wait ++ optS "labels" l.labels
  ++ optS "launch-container" l.launch_container ++ optS "config" l.config
  ++ optS "pre-run" l.pre_run ++ optS "post-run" l.post_run
  ++ optB "pull-latest" l.pull_latest ++ optB "stub-run" l.stub_run
  ++ optS "main-script" l.main_script ++ optS "entry-name" l.entry_name
  ++ optS "schema-name" l.schema_name ++ optS "user-secrets" l.user_secrets
  ++ optS "workspace-secrets" l.workspace_secrets
  ++ optB "disable-optimization" l.disable_optimization

/-- Launch.to_cli_args: the pipeline is the sole leading positional token
and the remaining attributes are rendered by the flag loop. -/
def launchToCliArgs (l : Launch) : List String :=
  l.pipeline :: dictToArgs (launchLoopDict l)

/-- Command completion shared by the no-inline-params branches of
PipelineCommandBuilder.build_command: an explicit params-file, when
present, is appended unchanged. -/
def launchNoParamsCommand (l : Launch) (args : List String) (meth : String) :
    Command :=
  { subcommand := "launch"
    args := args ++ (match l.params_file with
      | some pf => ["--params-file", pf]
      | none => [])
    method := meth }

/-- Command synthesis for a launch record, following
PipelineCommandBuilder.build_command (helper.py lines 256-282).  When the
record carries a non-empty inline params mapping and both a platform client
and a non-empty workspace are available, the dataset reference is resolved
through the client; the (possibly resolved) mapping is serialized to a
temporary params file by utils.create_temp_yaml.  Modelled from the spec:
create_temp_yaml lives in seqerakit/utils/helpers.py, which is not among
the provided sources; per §4.2.1 it serializes the mapping to a new
temporary document whose (environment-chosen) path is referenced by the
--params-file flag, so the path generator is passed in as tempFile.  The
returned list records the external calls performed during synthesis. -/
def launchBuildCommand (l : Launch) (sp : Option SeqeraPlatformModel)
    (tempFile : Doc → String) : Except String Command × List ExternalCall :=
  let args := launchToCliArgs l
  let meth := if anyValueJson (launchInputDict l) then "import" else "add"
  match l.params with
  | some ps =>
      if ps.isEmpty then (.ok (launchNoParamsCommand l args meth), [])
      else
        let resolved : Except String Doc × List ExternalCall :=
          match sp, l.workspace with
          | some spv, some w =>
              if w ≠ "" then resolveDatasetReference ps w spv else (.ok ps, [])
          | _, _ => (.ok ps, [])
        match resolved with
        | (.ok psr, calls) =>
            (.ok { subcommand := "launch"
                   args := args ++ ["--params-file", tempFile psr]
                   method := meth }, calls)
        | (.error e, calls) => (.error e, calls)
  | none => (.ok (launchNoParamsCommand l args meth), [])

/-! ## Auxiliary lemmas -/

instance : BEq Yaml := ⟨yamlBEq⟩

instance : LawfulBEq Yaml where
  eq_of_beq h := (yamlBEq_iff _ _).mp h
  rfl := (yamlBEq_iff _ _).mpr rfl

theorem yamlContains_eq_false_iff (es : List Yaml) (x : Yaml) :
    yamlContains es x = false ↔ x ∉ es := by
  rw [← Bool.not_eq_true, not_iff_not]
  exact yamlContains_iff_mem es x

theorem baseToCliArgs_append (xs ys : List (String × Yaml)) :
    baseToCliArgs (xs ++ ys) = baseToCliArgs xs ++ baseToCliArgs ys := by
  induction xs with
  | nil => simp [baseToCliArgs]
  | cons kv rest ih =>
      obtain ⟨k, v⟩ := kv
      cases v <;> simp [baseToCliArgs, ih]

theorem dictToArgs_append (xs ys : List (String × Yaml)) :
    dictToArgs (xs ++ ys) = dictToArgs xs ++ dictToArgs ys := by
  induction xs with
  | nil => simp [dictToArgs]
  | cons kv rest ih =>
      obtain ⟨k, v⟩ := kv
      cases v <;> simp [dictToArgs, ih]

theorem baseToCliArgs_nil : baseToCliArgs [] = [] := rfl

theorem baseToCliArgs_cons_str (k s : String) (rest : List (String × Yaml)) :
    baseToCliArgs ((k, Yaml.str s) :: rest)
      = ("--" ++ k) :: s :: baseToCliArgs rest := by
  simp [baseToCliArgs, pyStr]

theorem baseToCliArgs_cons_bool (k : String) (b : Bool)
    (rest : List (String × Yaml)) :
    baseToCliArgs ((k, Yaml.bool b) :: rest)
      = (if b then ["--" ++ k] else []) ++ baseToCliArgs rest := by
  simp [baseToCliArgs]

theorem dictToArgs_nil : dictToArgs [] = [] := rfl

theorem dictToArgs_cons_str (k s : String) (rest : List (String × Yaml)) :
    dictToArgs ((k, Yaml.str s) :: rest)
      = ("--" ++ k) :: s :: dictToArgs rest := by
  simp [dictToArgs, pyStr]

theorem dictToArgs_cons_bool (k : String) (b : Bool)
    (rest : List (String × Yaml)) :
    dictToArgs ((k, Yaml.bool b) :: rest)
      = (if b then ["--" ++ k] else []) ++ dictToArgs rest := by
  simp [dictToArgs]

theorem anyValueJson_append (xs ys : List (String × Yaml)) :
    anyValueJson (xs ++ ys) = (anyValueJson xs || anyValueJson ys) := by
  simp [anyValueJson]

theorem anyValueJson_nil : anyValueJson [] = false := rfl

theorem anyValueJson_cons (kv : String × Yaml) (rest : List (String × Yaml)) :
    anyValueJson (kv :: rest)
      = (containsJson (pyStr kv.2) || anyValueJson rest) := by
  simp [anyValueJson]

theorem docFind_docSet_self (d : Doc) (k : String) (v : Yaml) :
    docFind (docSet d k v) k = some v := by
  induction d with
  | nil => simp [docSet, docFind]
  | cons kv rest ih =>
      obtain ⟨k₁, v₁⟩ := kv
      by_cases h : k₁ = k <;> simp [docSet, docFind, h, ih]

theorem docFind_docSet_ne (d : Doc) (k k₂ : String) (v : Yaml) (h : k₂ ≠ k) :
    docFind (docSet d k v) k₂ = docFind d k₂ := by
  induction d with
  | nil => simp [docSet, docFind, Ne.symm h]
  | cons kv rest ih =>
      obtain ⟨k₁, v₁⟩ := kv
      by_cases h₁ : k₁ = k
      · subst h₁
        simp [docSet, docFind, Ne.symm h]
      · simp [docSet, docFind, h₁, ih]

theorem docSet_find_eq (d : Doc) (k : String) (w : Yaml)
    (h : docFind d k = some w) : docSet d k w = d := by
  induction d with
  | nil => simp [docFind] at h
  | cons kv rest ih =>
      obtain ⟨k₁, v₁⟩ := kv
      by_cases h₁ : k₁ = k
      · subst h₁
        simp [docFind] at h
        simp [docSet, h]
      · simp [docFind, h₁] at h
        simp [docSet, h₁, ih h]

theorem filter_not_contains_of_subset (es items : List Yaml)
    (hsub : ∀ i ∈ items, i ∈ es) :
    (items.filter fun i => !(yamlContains es i)) = [] := by
  rw [List.filter_eq_nil_iff]
  intro a ha
  simp [yamlContains_iff_mem, hsub a ha]

theorem mergeValue_absorb (old : Option Yaml) (v w : Yaml)
    (h : mergeValue old v = .ok w) : mergeValue (some w) v = .ok w := by
  have hself : ∀ u : Yaml, mergeValue (some u) u = .ok u := by
    intro u
    match u with
    | .str s => simp [mergeValue]
    | .int n => simp [mergeValue]
    | .bool b => simp [mergeValue]
    | .null => simp [mergeValue]
    | .map kvs => simp [mergeValue]
    | .list items =>
        by_cases hall : items.all isMapVal = true
        · simp [mergeValue, hall,
            filter_not_contains_of_subset items items fun i hi => hi]
        · simp [mergeValue, hall]
  match old with
  | none =>
      simp [mergeValue] at h
      subst h
      exact hself v
  | some oldVal =>
      match v with
      | .str s => simp_all [mergeValue]
      | .int n => simp_all [mergeValue]
      | .bool b => simp_all [mergeValue]
      | .null => simp_all [mergeValue]
      | .map kvs => simp_all [mergeValue]
      | .list items =>
          by_cases hall : items.all isMapVal = true
          · match oldVal with
            | .str s =>
                cases items with
                | nil =>
                    simp [mergeValue] at h
                    subst h
                    simp [mergeValue]
                | cons a as => simp [mergeValue, hall] at h
            | .map kvs =>
                cases items with
                | nil =>
                    simp [mergeValue] at h
                    subst h
                    simp [mergeValue]
                | cons a as => simp [mergeValue, hall] at h
            | .int n => simp [mergeValue, hall] at h
            | .bool b => simp [mergeValue, hall] at h
            | .null => simp [mergeValue, hall] at h
            | .list es =>
                simp [mergeValue, hall] at h
                subst h
                simp [mergeValue, hall]
                intro a ha
                rw [yamlContains_iff_mem]
                by_cases hes : a ∈ es
                · exact List.mem_append_left _ hes
                · refine List.mem_append_right _ ?_
                  rw [List.mem_filter]
                  refine ⟨ha, ?_⟩
                  simp [yamlContains_eq_false_iff, hes]
          · simp [mergeValue, hall] at h
            subst h
            simp [mergeValue, hall]

theorem mergeDocs_docFind_of_not_mem (src : Doc) (k : String) :
    ∀ (acc m : Doc), k ∉ src.map Prod.fst → mergeDocs acc src = .ok m →
      docFind m k = docFind acc k := by
  induction src with
  | nil =>
      intro acc m _ h
      simp [mergeDocs] at h
      subst h
      rfl
  | cons kv rest ih =>
      obtain ⟨k₁, v₁⟩ := kv
      intro acc m hk h
      simp only [List.map_cons, List.mem_cons] at hk
      push_neg at hk
      obtain ⟨hk₁, hkrest⟩ := hk
      rw [mergeDocs] at h
      cases he : mergeEntry acc k₁ v₁ with
      | error e => rw [he] at h; simp at h
      | ok acc₁ =>
          rw [he] at h
          have hfind := ih acc₁ m hkrest h
          rw [hfind]
          unfold mergeEntry at he
          cases hv : mergeValue (docFind acc k₁) v₁ with
          | error e => rw [hv] at he; simp at he
          | ok w =>
              rw [hv] at he
              simp at he
              subst he
              exact docFind_docSet_ne acc k₁ k w hk₁

theorem contains_iff_mem {α : Type} [BEq α] [LawfulBEq α] (l : List α) (a : α) :
    l.contains a = true ↔ a ∈ l := by
  simp [List.contains, List.elem_iff]

/-- Invariant of the parse_yaml_block loop: with no name filter, the loop
succeeds exactly when the identifying values of the remaining records are
pairwise distinct and avoid the values already seen. -/
theorem parseYamlBlockLoop_isOk {α : Type} (bn : String)
    (itemName : α → Option String) (build : α → BlockEntry) :
    ∀ (items : List α) (names : List (Option String)) (acc : List BlockEntry),
      (parseYamlBlockLoop bn itemName build none items names acc).isOk = true
        ↔ (items.map fun it => findName (build it)).Nodup
          ∧ ∀ it ∈ items, findName (build it) ∉ names := by
  intro items
  induction items with
  | nil => intro names acc; simp [parseYamlBlockLoop, Except.isOk, Except.toBool]
  | cons item rest ih =>
      intro names acc
      by_cases hc : findName (build item) ∈ names
      · have hcb : names.contains (findName (build item)) = true := by
          rw [contains_iff_mem]
          exact hc
        rw [parseYamlBlockLoop]
        simp only [hcb]
        simp only [Bool.false_eq_true, if_false, if_true, Except.isOk, Except.toBool]
        constructor
        · intro h
          simp at h
        · rintro ⟨-, hall⟩
          exact absurd hc (hall item (List.mem_cons_self item rest))
      · have hcb : names.contains (findName (build item)) = false := by
          rw [Bool.eq_false_iff]
          intro hcontra
          exact hc ((contains_iff_mem names (findName (build item))).mp hcontra)
        rw [parseYamlBlockLoop]
        simp only [hcb]
        simp only [Bool.false_eq_true, if_false]
        rw [ih (findName (build item) :: names) (build item :: acc)]
        simp only [List.map_cons, List.nodup_cons, List.mem_map, List.mem_cons]
        constructor
        · rintro ⟨hnd, hall⟩
          refine ⟨⟨?_, hnd⟩, ?_⟩
          · rintro ⟨it, hit, heq⟩
            have := hall it hit
            simp [heq] at this
          · rintro it (rfl | hit)
            · exact hc
            · have := hall it hit
              simp at this
              exact this.2
        · rintro ⟨⟨hni, hnd⟩, hall⟩
          refine ⟨hnd, ?_⟩
          intro it hit
          simp only [List.mem_cons, not_or]
          refine ⟨?_, ?_⟩
          · intro heq
            exact hni ⟨it, hit, heq⟩
          · exact hall it (Or.inr hit)

/-- Tests whether a YAML value is a list of mappings. -/
def isListOfMaps : Yaml → Bool
  | .list items => items.all isMapVal
  | _ => false

/-- Statement of claim C5, claim side: the merge rule as the claim words
it — when both the existing and the new value are lists of mappings, the
existing list is extended by the new items not content-equal to an
existing item; in every other case the new value replaces the existing
one.  Compared against the source-derived mergeValue. -/
def mergeValueClaimed (old v : Yaml) : Yaml :=
  match old, v with
  | .list es, .list items =>
      if es.all isMapVal && items.all isMapVal then
        .list (es ++ items.filter fun i => !(yamlContains es i))
      else v
  | _, _ => v

/-! ## Claim theorems -/

/-- Claim C1 (status: code_bug).  The claim — and the repository's own test
test_aws_credential_to_cli_args together with the docstring of
TypeBasedCommandBuilder.build_command — requires the credential type to be
a leading positional token.  The Credential model, however, does not
override to_cli_args, so the inherited generic rendering emits the type as
a --type flag pair: on the record of the claim the synthesized argument
list begins with "--type", not with the positional "aws".  The name,
access-key and secret-key flags and the add sub-operation agree with the
claim. -/
theorem credentials_type_flag_not_positional :
    credentialsBuildCommand
        { type := "aws", name := "c1",
          access_key := some "AK", secret_key := some "SK" }
      = { subcommand := "credentials"
          args := ["--type", "aws", "--name", "c1",
                   "--access-key", "AK", "--secret-key", "SK"]
          method := "add" }
    ∧ (credentialsBuildCommand
        { type := "aws", name := "c1",
          access_key := some "AK", secret_key := some "SK" }).args.head?
        ≠ some "aws" := by
  decide

/-- Claim C2 (status: confirmed).  The effective existence policy of a
record is resolved with precedence run-global policy (the --on-exists
option, or failing that the deprecated global --overwrite flag) over the
record's legacy overwrite boolean (true giving Overwrite, false Fail) over
the record's on_exists setting over the default Fail; in particular a
record with on_exists ignore resolves to Overwrite under a global
overwrite policy and to Ignore without a global policy. -/
theorem on_exists_precedence :
    (∀ (g : Option OnExists) (gow : Bool) (rw : Option Bool)
        (re : Option OnExists) (rec : OnExists),
        parseBlockOnExists rw (re.map onExistsName) = .ok rec →
        handleBlockOnExists g gow rec
          = (runGlobalPolicy g gow).getD
              (match rw with
               | some b => if b then .overwrite else .fail
               | none => re.getD .fail))
    ∧ parseBlockOnExists none (some "ignore") = .ok .ignore
    ∧ handleBlockOnExists (some .overwrite) false .ignore = .overwrite
    ∧ handleBlockOnExists none false .ignore = .ignore := by
  refine ⟨?_, by decide, by decide, by decide⟩
  intro g gow rw re rec h
  cases rw with
  | some b =>
      simp [parseBlockOnExists] at h
      subst h
      cases g <;> cases gow <;> cases b <;>
        simp [handleBlockOnExists, runGlobalPolicy]
  | none =>
      cases re with
      | none =>
          simp [parseBlockOnExists] at h
          subst h
          cases g <;> cases gow <;> simp [handleBlockOnExists, runGlobalPolicy]
      | some e =>
          have he : onExistsOfString (onExistsName e) = some e := by
            cases e <;> decide
          simp [parseBlockOnExists, he] at h
          subst h
          cases g <;> cases gow <;> simp [handleBlockOnExists, runGlobalPolicy]

/-- Claim C2 witness: the general precedence equation applied at the
concrete scenario of the claim (record on_exists ignore, global policy
overwrite). -/
theorem on_exists_precedence_witness :
    handleBlockOnExists (some .overwrite) false .ignore
      = (runGlobalPolicy (some .overwrite) false).getD
          ((some OnExists.ignore).getD .fail) :=
  on_exists_precedence.1 (some .overwrite) false none (some .ignore) .ignore
    (by decide)

/-- Claim C3 (status: confirmed).  Within one block, parse_yaml_block fails
with the duplicate-name error exactly when two records resolve to the same
identifying value (a failed block returns no command list, so nothing is
dispatched for that kind); the identifying value is the token immediately
following the first occurrence of --name, --user or --email in the
synthesized arguments; two pipeline records both named demo are rejected
while demo and demo2 are accepted. -/
theorem duplicate_name_detection :
    (∀ (α : Type) (bn : String) (itemName : α → Option String)
        (build : α → BlockEntry) (items : List α),
        (parseYamlBlockItems bn itemName build none items).isOk = true
          ↔ (items.map fun it => findName (build it)).Nodup)
    ∧ (∀ (pre post : List String) (n : String),
        "--name" ∉ pre → "--user" ∉ pre → "--email" ∉ pre →
        searchNameToken (pre ++ "--name" :: n :: post) = some n)
    ∧ (parseYamlBlockItems "pipelines" (fun p => some p.name)
        (fun p => { cmd_args := .single (pipelinesBuildCommand p),
                    on_exists := .fail })
        none
        [{ name := "demo", url := "https://github.com/test/repo1" },
         { name := "demo", url := "https://github.com/test/repo2" }]).isOk
        = false
    ∧ (parseYamlBlockItems "pipelines" (fun p => some p.name)
        (fun p => { cmd_args := .single (pipelinesBuildCommand p),
                    on_exists := .fail })
        none
        [{ name := "demo", url := "https://github.com/test/repo1" },
         { name := "demo2", url := "https://github.com/test/repo2" }]).isOk
        = true := by
  refine ⟨?_, ?_, by decide, by decide⟩
  · intro α bn itemName build items
    rw [parseYamlBlockItems, parseYamlBlockLoop_isOk]
    simp
  · intro pre post n h₁ h₂ h₃
    induction pre with
    | nil => simp [searchNameToken]
    | cons a pre ih =>
        simp only [List.mem_cons, not_or] at h₁ h₂ h₃
        rw [List.cons_append, searchNameToken]
        rw [if_neg]
        · exact ih h₁.2 h₂.2 h₃.2
        · push_neg
          exact ⟨Ne.symm h₁.1, Ne.symm h₂.1, Ne.symm h₃.1⟩

/-- Claim C3 witness: the general parts applied at concrete inputs — the
identifying token of a synthesized pipeline argument list, and the
block-level success of a singleton block. -/
theorem duplicate_name_detection_witness :
    searchNameToken (["https://github.com/test/repo1"] ++ "--name" :: "demo" :: [])
      = some "demo"
    ∧ (parseYamlBlockItems "pipelines" (fun p => some p.name)
        (fun p => { cmd_args := .single (pipelinesBuildCommand p),
                    on_exists := .fail })
        none
        [{ name := "demo", url := "https://github.com/test/repo1" }]).isOk
        = true :=
  ⟨duplicate_name_detection.2.1 ["https://github.com/test/repo1"] [] "demo"
      (by decide) (by decide) (by decide),
   (duplicate_name_detection.1 Pipeline "pipelines" (fun p => some p.name)
      (fun p => { cmd_args := .single (pipelinesBuildCommand p),
                  on_exists := .fail })
      [{ name := "demo", url := "https://github.com/test/repo1" }]).mpr
      (by decide)⟩

/-- Claim C4 (status: confirmed).  The creation order is a fixed total
order placing organizations before workspaces before pipelines before
launch, and the deletion order equals the reverse of the creation order
with the last creation-order kind (studios) removed. -/
theorem resource_order_properties :
    ((getResourceOrder false).indexOf "organizations"
        < (getResourceOrder false).indexOf "workspaces"
      ∧ (getResourceOrder false).indexOf "workspaces"
        < (getResourceOrder false).indexOf "pipelines"
      ∧ (getResourceOrder false).indexOf "pipelines"
        < (getResourceOrder false).indexOf "launch"
      ∧ "organizations" ∈ getResourceOrder false
      ∧ "workspaces" ∈ getResourceOrder false
      ∧ "pipelines" ∈ getResourceOrder false
      ∧ "launch" ∈ getResourceOrder false)
    ∧ getResourceOrder true = ((getResourceOrder false).dropLast).reverse := by
  decide

/-- Claim C10 (status: confirmed).  A record whose synthesized arguments
contain none of the identifying keys resolves to the identifying value
none, and none participates in duplicate detection like any other value:
the second identifier-less record of a block is rejected with the
duplicate-name error even when the two records differ. -/
theorem none_identifier_duplicates :
    ∀ (α : Type) (bn : String) (itemName : α → Option String)
      (build : α → BlockEntry) (r1 r2 : α),
      findName (build r1) = none → findName (build r2) = none →
      (parseYamlBlockItems bn itemName build none [r1, r2]).isOk = false := by
  intro α bn itemName build r1 r2 h1 h2
  rw [Bool.eq_false_iff]
  intro hok
  rw [parseYamlBlockItems, parseYamlBlockLoop_isOk] at hok
  obtain ⟨hnd, -⟩ := hok
  simp [h1, h2] at hnd

/-- Claim C10 witness: two structurally distinct file-path import records
of the compute-envs kind, neither carrying a name, are rejected as
duplicates. -/
theorem none_identifier_duplicates_witness :
    (parseYamlBlockItems "compute-envs" rawItemName
      (fun it => { cmd_args := .single (typeBasedBuildFromDict "compute-envs" it),
                   on_exists := .fail })
      none
      [[("file-path", Yaml.str "ce1.json")],
       [("file-path", Yaml.str "ce2.json")]]).isOk = false :=
  none_identifier_duplicates RawItem "compute-envs" rawItemName
    (fun it => { cmd_args := .single (typeBasedBuildFromDict "compute-envs" it),
                 on_exists := .fail })
    [("file-path", Yaml.str "ce1.json")] [("file-path", Yaml.str "ce2.json")]
    (by decide) (by decide)

/-- Claim C5 counterexample (status: corrected).  The claim requires the
append-union branch only when both the existing and the new value are
lists of mappings, and replacement otherwise; the code checks only the new
value.  Concretely, with an existing list of strings and a new list of
mappings the claim prescribes replacement, but the code appends: the two
rules disagree at this input, both at the value level and at the document
level. -/
theorem merge_condition_counterexample :
    mergeValue (some (.list [.str "base"])) (.list [.map [("name", .str "p")]])
      = .ok (.list [.str "base", .map [("name", .str "p")]])
    ∧ mergeValueClaimed (.list [.str "base"]) (.list [.map [("name", .str "p")]])
      = .list [.map [("name", .str "p")]]
    ∧ mergeValue (some (.list [.str "base"])) (.list [.map [("name", .str "p")]])
      ≠ .ok (mergeValueClaimed (.list [.str "base"])
              (.list [.map [("name", .str "p")]]))
    ∧ mergeDocs [("k", .list [.str "base"])]
        [("k", .list [.map [("name", .str "p")]])]
      = .ok [("k", .list [.str "base", .map [("name", .str "p")]])] := by
  decide

/-- Claim C5 as amended (status: corrected).  For a key already present in
the accumulator: when the NEW value is a list of mappings (the shape of
the existing value is not consulted), the merged value is the existing
list extended by exactly those new items not content-equal to any existing
element; when the existing value is not a list, a NON-EMPTY new list of
mappings makes the merge step raise (the append into a string, mapping or
scalar fails), while an EMPTY new list of mappings leaves a string or
mapping existing value unchanged and raises only on a non-iterable scalar
(number, boolean, null).  When the new value is not a list of mappings, it
replaces the existing value (last write wins).  Under the append branch no
record of either side is dropped. -/
theorem merge_amended :
    (∀ (old v : Yaml), isListOfMaps v = false → mergeValue (some old) v = .ok v)
    ∧ (∀ (es items : List Yaml), items.all isMapVal = true →
        mergeValue (some (.list es)) (.list items)
          = .ok (.list (es ++ items.filter fun i => decide (i ∉ es))))
    ∧ (∀ (old : Yaml) (items : List Yaml), items.all isMapVal = true →
        items ≠ [] → (∀ es : List Yaml, old ≠ .list es) →
        (mergeValue (some old) (.list items)).isOk = false)
    ∧ (∀ s : String, mergeValue (some (.str s)) (.list []) = .ok (.str s))
    ∧ (∀ kvs : List (String × Yaml),
        mergeValue (some (.map kvs)) (.list []) = .ok (.map kvs))
    ∧ (∀ n : Int, (mergeValue (some (.int n)) (.list [])).isOk = false)
    ∧ (∀ b : Bool, (mergeValue (some (.bool b)) (.list [])).isOk = false)
    ∧ (mergeValue (some .null) (.list [])).isOk = false
    ∧ (∀ (es items ws : List Yaml), items.all isMapVal = true →
        mergeValue (some (.list es)) (.list items) = .ok (.list ws) →
        ∀ x, x ∈ es ∨ x ∈ items → x ∈ ws) := by
  have hfun : ∀ es : List Yaml,
      (fun i => !(yamlContains es i)) = (fun i => decide (i ∉ es)) := by
    intro es
    funext i
    by_cases hi : i ∈ es
    · simp [(yamlContains_iff_mem es i).mpr hi, hi]
    · simp [hi, (yamlContains_eq_false_iff es i).mpr hi]
  refine ⟨?_, ?_, ?_, ?_, ?_, ?_, by decide, by decide, ?_⟩
  · intro old v hv
    match v with
    | .str s => simp [mergeValue]
    | .int n => simp [mergeValue]
    | .bool b => simp [mergeValue]
    | .null => simp [mergeValue]
    | .map kvs => simp [mergeValue]
    | .list items =>
        simp [isListOfMaps] at hv
        simp [mergeValue, hv]
  · intro es items hall
    simp [mergeValue, hall, hfun es]
  · intro old items hall hni hne
    match old with
    | .list es => exact absurd rfl (hne es)
    | .str s =>
        cases items with
        | nil => exact absurd rfl hni
        | cons a as => simp [mergeValue, hall, Except.isOk, Except.toBool]
    | .map kvs =>
        cases items with
        | nil => exact absurd rfl hni
        | cons a as => simp [mergeValue, hall, Except.isOk, Except.toBool]
    | .int n => simp [mergeValue, hall, Except.isOk, Except.toBool]
    | .bool b => simp [mergeValue, hall, Except.isOk, Except.toBool]
    | .null => simp [mergeValue, hall, Except.isOk, Except.toBool]
  · intro s
    simp [mergeValue]
  · intro kvs
    simp [mergeValue]
  · intro n
    simp [mergeValue, Except.isOk, Except.toBool]
  · intro es items ws hall h x hx
    simp [mergeValue, hall] at h
    subst h
    rcases hx with hx | hx
    · exact List.mem_append_left _ hx
    · by_cases hes : x ∈ es
      · exact List.mem_append_left _ hes
      · refine List.mem_append_right _ ?_
        rw [List.mem_filter]
        refine ⟨hx, ?_⟩
        simp [yamlContains_eq_false_iff, hes]

/-- Claim C5 amended-claim witness: the append branch applied at a
concrete pair of sources sharing a key. -/
theorem merge_amended_witness :
    mergeValue (some (.list [.map [("name", .str "p1")]]))
        (.list [.map [("name", .str "p1")], .map [("name", .str "p2")]])
      = .ok (.list [.map [("name", .str "p1")], .map [("name", .str "p2")]]) := by
  have h := merge_amended.2.1 [.map [("name", .str "p1")]]
    [.map [("name", .str "p1")], .map [("name", .str "p2")]] (by decide)
  rw [h]
  decide

/-- Claim C6 (status: confirmed).  Merging the same source document twice
yields the same merged content as merging it once: for list-of-mapping
values the second pass appends no entry content-equal to one already
present, and every other value overwrites itself.  The source keys are
pairwise distinct, as they are for any Python dict produced by the YAML
loader. -/
theorem merge_idempotent :
    ∀ (src acc m : Doc), (src.map Prod.fst).Nodup →
      mergeDocs acc src = .ok m → mergeDocs m src = .ok m := by
  intro src
  induction src with
  | nil =>
      intro acc m _ h
      simp [mergeDocs] at h
      subst h
      simp [mergeDocs]
  | cons kv rest ih =>
      obtain ⟨k, v⟩ := kv
      intro acc m hnd h
      rw [List.map_cons, List.nodup_cons] at hnd
      obtain ⟨hk, hnd⟩ := hnd
      rw [mergeDocs] at h
      cases he : mergeEntry acc k v with
      | error e => rw [he] at h; simp at h
      | ok acc₁ =>
          rw [he] at h
          rw [mergeDocs]
          unfold mergeEntry at he
          cases hv : mergeValue (docFind acc k) v with
          | error e => rw [hv] at he; simp at he
          | ok w =>
              rw [hv] at he
              simp at he
              subst he
              have hfind : docFind m k = some w := by
                rw [mergeDocs_docFind_of_not_mem rest k (docSet acc k w) m hk h]
                exact docFind_docSet_self acc k w
              have habs := mergeValue_absorb (docFind acc k) v w hv
              have hentry : mergeEntry m k v = .ok m := by
                unfold mergeEntry
                rw [hfind, habs]
                simp [docSet_find_eq m k w hfind]
              rw [hentry]
              exact ih (docSet acc k w) m hnd h

/-- Claim C6 witness: a two-kind source document merged into the empty
accumulator and then merged again, reproducing the once-merged document. -/
theorem merge_idempotent_witness :
    mergeDocs
        [("pipelines", Yaml.list [Yaml.map [("name", Yaml.str "p1")]]),
         ("organizations", Yaml.list [Yaml.map [("name", Yaml.str "o1")]])]
        [("pipelines", Yaml.list [Yaml.map [("name", Yaml.str "p1")]]),
         ("organizations", Yaml.list [Yaml.map [("name", Yaml.str "o1")]])]
      = .ok
        [("pipelines", Yaml.list [Yaml.map [("name", Yaml.str "p1")]]),
         ("organizations", Yaml.list [Yaml.map [("name", Yaml.str "o1")]])] :=
  merge_idempotent
    [("pipelines", Yaml.list [Yaml.map [("name", Yaml.str "p1")]]),
     ("organizations", Yaml.list [Yaml.map [("name", Yaml.str "o1")]])]
    []
    [("pipelines", Yaml.list [Yaml.map [("name", Yaml.str "p1")]]),
     ("organizations", Yaml.list [Yaml.map [("name", Yaml.str "o1")]])]
    (by decide) (by decide)

/-- Claim C7 counterexample (status: corrected).  Against the claim, a
dataset record carrying all four attributes synthesizes with the file path
rendered as a --file-path flag pair — the argument list begins with
"--file-path", not with the path as a sole leading positional — and a
record carrying only file-path synthesizes successfully instead of
failing for the missing name, workspace and description. -/
theorem dataset_positional_counterexample :
    datasetsParseCommand
        [("file-path", .str "/data/samples.csv"), ("name", .str "d1"),
         ("workspace", .str "org/ws"), ("description", .str "demo"),
         ("header", .bool true)]
      = .ok { subcommand := "datasets"
              args := ["--file-path", "/data/samples.csv", "--name", "d1",
                       "--workspace", "org/ws", "--description", "demo",
                       "--header"]
              method := "add" }
    ∧ (match datasetsParseCommand
          [("file-path", .str "/data/samples.csv"), ("name", .str "d1"),
           ("workspace", .str "org/ws"), ("description", .str "demo"),
           ("header", .bool true)] with
        | .ok c => c.args.head?
        | .error _ => none) ≠ some "/data/samples.csv"
    ∧ datasetsParseCommand [("file-path", .str "/data/samples.csv")]
      = .ok { subcommand := "datasets"
              args := ["--file-path", "/data/samples.csv"]
              method := "add" } := by
  decide

/-- Claim C7 as amended (status: corrected).  A dataset record without
file-path always fails synthesis (the model declares file_path required),
so name, workspace and description are never validated: a record with
file-path bypasses model validation entirely and synthesizes directly from
the raw dict, rendering every attribute — the file path included — as a
--key value flag pair in record order with no positional, a true header
becoming a bare --header flag, and the on_exists/overwrite metadata
stripped. -/
theorem dataset_synthesis_amended :
    (∀ (fp n w d : String) (h : Bool),
        datasetsParseCommand
            [("file-path", .str fp), ("name", .str n), ("workspace", .str w),
             ("description", .str d), ("header", .bool h)]
          = .ok { subcommand := "datasets"
                  args := ["--file-path", fp, "--name", n, "--workspace", w,
                           "--description", d]
                    ++ (if h then ["--header"] else [])
                  method := "add" })
    ∧ (∀ fp : String,
        datasetsParseCommand [("file-path", .str fp)]
          = .ok { subcommand := "datasets"
                  args := ["--file-path", fp]
                  method := "add" })
    ∧ (∀ item : RawItem, docFind item "file-path" = none →
        (datasetsParseCommand item).isOk = false)
    ∧ (∀ item : RawItem,
        datasetsParseCommand
            (("on_exists", Yaml.str "ignore") :: ("overwrite", Yaml.bool true)
              :: item)
          = datasetsParseCommand item) := by
  refine ⟨?_, ?_, ?_, ?_⟩
  · intro fp n w d h
    cases h <;>
      simp [datasetsParseCommand, genericBuildFromDict, rawStripMeta,
        dictToArgs, pyStr, docFind]
  · intro fp
    simp [datasetsParseCommand, genericBuildFromDict, rawStripMeta,
      dictToArgs, pyStr, docFind]
  · intro item h
    simp [datasetsParseCommand, h, Except.isOk, Except.toBool]
  · intro item
    simp [datasetsParseCommand, genericBuildFromDict, rawStripMeta,
      dictToArgs, docFind]

/-- Claim C7 amended-claim witness: the amended synthesis rule applied at a
concrete record with all attributes, and the failure applied at a concrete
record lacking file-path. -/
theorem dataset_synthesis_amended_witness :
    datasetsParseCommand
        [("file-path", .str "/d.csv"), ("name", .str "n"),
         ("workspace", .str "w"), ("description", .str "x"),
         ("header", .bool true)]
      = .ok { subcommand := "datasets"
              args := ["--file-path", "/d.csv", "--name", "n",
                       "--workspace", "w", "--description", "x", "--header"]
              method := "add" }
    ∧ (datasetsParseCommand [("name", Yaml.str "n")]).isOk = false :=
  ⟨by
      have h := dataset_synthesis_amended.1 "/d.csv" "n" "w" "x" true
      simpa using h,
   dataset_synthesis_amended.2.2.1 [("name", Yaml.str "n")] (by decide)⟩

/-- Claim C8 counterexample (status: corrected).  The claim requires both
existence-policy metadata fields to be stripped before synthesis for every
record.  On the model path, overwrite is a declared field of most models
(Organization among them), so a record with overwrite true synthesizes a
trailing bare --overwrite flag, and its argument list differs from the
argument list of the same record with the metadata removed. -/
theorem metadata_strip_counterexample :
    (organizationsParse
        { name := "o", full_name := "Org O",
          overwrite := some true, on_exists := some "ignore" }).args
      = ["--name", "o", "--full-name", "Org O", "--overwrite"]
    ∧ (organizationsParse { name := "o", full_name := "Org O" }).args
      = ["--name", "o", "--full-name", "Org O"]
    ∧ (organizationsParse
        { name := "o", full_name := "Org O",
          overwrite := some true, on_exists := some "ignore" }).args
      ≠ (organizationsParse { name := "o", full_name := "Org O" }).args := by
  decide

set_option maxHeartbeats 1000000 in
/-- Claim C8 as amended (status: corrected).  on_exists never reaches the
synthesized arguments: it is not a declared field of any model and is
dropped by extra="ignore" (shown for organization records over the full
raw-record space), and the raw-dict import paths strip both metadata
fields explicitly (rawStripMeta).  overwrite, however, survives the model
path as a declared field, and a true value yields one bare --overwrite
flag at the position of the overwrite field in the model's declaration
order, not necessarily trailing.  Organization declares overwrite last,
so its arguments are the metadata-free arguments extended by
["--overwrite"]; Credential and Action declare overwrite fourth, before
access-key/pipeline and the later attributes, so the flag is inserted
between the arguments of the fields declared before it (type, name,
workspace) and those declared after it, and the metadata-free record
yields the same list without the flag (the credential sub-operation is
unaffected).  overwrite false or absent contributes nothing.  The other
overwrite-declaring kinds (workspace, team, label, member, participant,
secret, data-link, studio) declare the field last, like organization. -/
theorem metadata_strip_amended :
    (∀ it : RawOrgItem,
      (organizationsParse it).args
        = (organizationsParse
            { it with overwrite := none, on_exists := none }).args
          ++ (if it.overwrite = some true then ["--overwrite"] else [])
      ∧ (organizationsParse it).args
        = (organizationsParse { it with on_exists := none }).args)
    ∧ (∀ c : Credential,
      (credentialsBuildCommand c).args
        = credOverwritePrefix c
          ++ (if c.overwrite = some true then ["--overwrite"] else [])
          ++ credOverwriteSuffix c
      ∧ (credentialsBuildCommand { c with overwrite := none }).args
        = credOverwritePrefix c ++ credOverwriteSuffix c
      ∧ (credentialsBuildCommand c).method
        = (credentialsBuildCommand { c with overwrite := none }).method)
    ∧ (∀ a : Action,
      actionToCliArgs a
        = actionOverwritePrefix a
          ++ (if a.overwrite = some true then ["--overwrite"] else [])
          ++ actionOverwriteSuffix a
      ∧ actionToCliArgs { a with overwrite := none }
        = actionOverwritePrefix a ++ actionOverwriteSuffix a) := by
  refine ⟨?_, ?_, ?_⟩
  · intro it
    obtain ⟨n, fn, d, loc, w, ow, oe⟩ := it
    constructor
    · cases ow with
      | none =>
          simp [organizationsParse, orgOfItem, organizationsBuildCommand,
            orgInputDict, optB]
      | some b =>
          cases b <;>
            simp [organizationsParse, orgOfItem, organizationsBuildCommand,
              orgInputDict, optB, baseToCliArgs_append, baseToCliArgs]
    · rfl
  · intro c
    obtain ⟨ty, nm, ws, ow, ak, sk, ara, ky, bk, bnm, stk, stn, un, pw, tk,
      pk, pp, kc, ci, wd, rs⟩ := c
    refine ⟨?_, ?_, ?_⟩
    · cases ow with
      | none =>
          simp [credentialsBuildCommand, credInputDict, credOverwritePrefix,
            credOverwriteSuffix, optB, baseToCliArgs_append,
            baseToCliArgs_nil, baseToCliArgs_cons_str, baseToCliArgs_cons_bool]
      | some b =>
          cases b <;>
            simp [credentialsBuildCommand, credInputDict, credOverwritePrefix,
              credOverwriteSuffix, optB, baseToCliArgs_append,
              baseToCliArgs_nil, baseToCliArgs_cons_str,
              baseToCliArgs_cons_bool]
    · simp [credentialsBuildCommand, credInputDict, credOverwritePrefix,
        credOverwriteSuffix, optB, baseToCliArgs_append,
        baseToCliArgs_nil, baseToCliArgs_cons_str, baseToCliArgs_cons_bool]
    · cases ow with
      | none => rfl
      | some b =>
          have hb : containsJson (pyStr (Yaml.bool b)) = false := by
            cases b <;> decide
          simp [credentialsBuildCommand, credInputDict, optB,
            anyValueJson_append, anyValueJson_nil, anyValueJson_cons, hb]
  · intro a
    obtain ⟨ty, nm, ws, ow, pl, ur, hu, hm, ep, ev, la, pr⟩ := a
    constructor
    · cases ow with
      | none =>
          simp [actionToCliArgs, actionLoopDict, actionOverwritePrefix,
            actionOverwriteSuffix, optB, dictToArgs_append,
            dictToArgs_nil, dictToArgs_cons_str, dictToArgs_cons_bool]
      | some b =>
          cases b <;>
            simp [actionToCliArgs, actionLoopDict, actionOverwritePrefix,
              actionOverwriteSuffix, optB, dictToArgs_append,
              dictToArgs_nil, dictToArgs_cons_str, dictToArgs_cons_bool]
    · simp [actionToCliArgs, actionLoopDict, actionOverwritePrefix,
        actionOverwriteSuffix, optB, dictToArgs_append,
        dictToArgs_nil, dictToArgs_cons_str, dictToArgs_cons_bool]

/-- Claim C9 (status: code_bug).  The claim — and specification §5 — says a
dry run performs no external calls, every record proceeds, and each
command is only rendered.  A valid launch record whose inline params
reference a dataset falsifies the record-proceeds part: the builder calls
resolve_dataset_reference even under dry-run (the guard checks only that a
platform client and workspace are present), the dry-run client renders the
lookup without producing a result, and resolve_dataset_reference then
raises its failed-to-resolve ValueError, aborting the run.  No external
call is made (first two conjuncts); the identical record under a real run
resolves and synthesizes (last two conjuncts), isolating dry-run as the
trigger. -/
theorem dryrun_dataset_record_fails :
    (launchBuildCommand
        { pipeline := "hello", workspace := some "org/ws",
          params := some [("dataset", .str "d1")] }
        (some { dryrun := true,
                datasetUrl := fun _ _ => some "https://api/datasets/1" })
        (fun _ => "/tmp/params.yaml")).1.isOk = false
    ∧ (launchBuildCommand
        { pipeline := "hello", workspace := some "org/ws",
          params := some [("dataset", .str "d1")] }
        (some { dryrun := true,
                datasetUrl := fun _ _ => some "https://api/datasets/1" })
        (fun _ => "/tmp/params.yaml")).2 = []
    ∧ (launchBuildCommand
        { pipeline := "hello", workspace := some "org/ws",
          params := some [("dataset", .str "d1")] }
        (some { dryrun := false,
                datasetUrl := fun _ _ => some "https://api/datasets/1" })
        (fun _ => "/tmp/params.yaml")).1
      = .ok { subcommand := "launch"
              args := ["hello", "--workspace", "org/ws",
                       "--params-file", "/tmp/params.yaml"]
              method := "add" }
    ∧ (launchBuildCommand
        { pipeline := "hello", workspace := some "org/ws",
          params := some [("dataset", .str "d1")] }
        (some { dryrun := false,
                datasetUrl := fun _ _ => some "https://api/datasets/1" })
        (fun _ => "/tmp/params.yaml")).2
      = [.datasetLookup "d1" "org/ws"] := by
  decide

end Seqerakit
